import Mathlib

/-!
Shallow embedding of `ovirt-iso-uploader` (`src/__main__.py`) in Lean 4.

The program uploads ISO files to a storage domain over one of two
transports (SSH or NFS) and can list ISO storage domains.  The
definitions below translate, from the Python source:

* the exit-code pseudo-enumeration `ExitCodes`;
* the `Caller` process invoker (`prep` / `call`);
* the per-file upload steps of `ISOUploader.upload_to_storage_domain`
  for both transports, driven by an environment recording the outcome
  of each external operation;
* the NFS run wrapper with its mount / loop / `finally` cleanup shape;
* the sparse copy loop `copyfileobj_sparse_progress`;
* the privilege-switching NFS helpers (`exists_nfs`, `space_test_nfs`,
  `copy_file`, `rename_file_nfs`, `remove_file_nfs`) as event traces;
* `exists_ssh` and `list_all_ISO_storage_domains`.

External effects (processes, the filesystem, the REST API) are passed
in explicitly as data, so every definition is executable.
-/

namespace IsoUploader

/-! ### Exit codes (`class ExitCodes`) -/

namespace ExitCodes

def NOERR : Nat := 0

def CRITICAL : Nat := 1

def LIST_ISO_ERR : Nat := 2

def UPLOAD_ERR : Nat := 3

def CLEANUP_ERR : Nat := 4

end ExitCodes

/-! ### Upload option validation (head of `upload_to_storage_domain`)

`upload_to_storage_domain` first checks the mutual exclusion of
`--iso-domain` with `--nfs-server` (and of `--ssh-user` with
`--nfs-server`), then dispatches on which destination option is set,
raising when neither is given.  Options are modelled by their
truthiness, which is what `self.configuration.get(...)` tests. -/

inductive UploadTarget where
  | isoDomain
  | nfsServer
deriving DecidableEq, Repr

def checkUploadOptions (iso_domain nfs_server ssh_user : Bool) :
    Except String UploadTarget :=
  if iso_domain && nfs_server then
    .error "iso-domain and nfs-server are mutually exclusive options"
  else if ssh_user && nfs_server then
    .error "ssh-user and nfs-server are mutually exclusive options"
  else if iso_domain then
    .ok .isoDomain
  else if nfs_server then
    .ok .nfsServer
  else
    .error "either iso-domain or nfs-server must be provided"

/-! ### Per-file upload steps

Each external operation of the per-file body is an input:

* SSH transport: result of `exists_ssh`, whether `remove_file_ssh`
  raises, the `(dir_size, file_size)` answer of `space_test_ssh`
  (`none` when it raises), and whether the `scp` / `chown` / `chmod` /
  `mv` shell-outs raise.
* NFS transport: result of `exists_nfs` (`none` when it raises — that
  exception escapes the per-file `try` and is caught by the run-level
  handler), the `space_test_nfs` answer, and the boolean results of
  `copy_file` and `rename_file_nfs`.

A `FileStep` records what the body did to the one file; the returned
`Nat` is the new value of the global `ExitCodes.exit_code`. -/

inductive FileEvent where
  | uploaded
  | skippedExisting
  | spaceAborted
  | copyFailed
  | renameFailed
  | errored
deriving DecidableEq, Repr

structure FileStep where
  event : FileEvent
  copyAttempted : Bool
deriving DecidableEq, Repr

structure SshFileEnv where
  destExists : Bool
  removeOk : Bool
  spaceResult : Option (Nat × Nat)
  scpOk : Bool
  chownOk : Bool
  chmodOk : Bool
  renameOk : Bool
deriving DecidableEq, Repr

def processFileSsh (force isRoot : Bool) (env : SshFileEnv) (exit_code : Nat) :
    Nat × FileStep :=
  if force || !env.destExists then
    -- body of the per-file `try:`; any raise lands in the
    -- `except:` which sets `UPLOAD_ERR`
    if env.destExists && !env.removeOk then
      (ExitCodes.UPLOAD_ERR, ⟨.errored, false⟩)
    else
      match env.spaceResult with
      | none => (ExitCodes.UPLOAD_ERR, ⟨.errored, false⟩)
      | some (dir_size, file_size) =>
        if dir_size > file_size then
          if !env.scpOk then
            (ExitCodes.UPLOAD_ERR, ⟨.errored, true⟩)
          else if isRoot && !env.chownOk then
            (ExitCodes.UPLOAD_ERR, ⟨.errored, true⟩)
          else if !env.chmodOk then
            (ExitCodes.UPLOAD_ERR, ⟨.errored, true⟩)
          else if !env.renameOk then
            (ExitCodes.UPLOAD_ERR, ⟨.errored, true⟩)
          else
            (exit_code, ⟨.uploaded, true⟩)
        else
          -- `logging.error('There is not enough space ...')` only:
          -- the exit code is left untouched
          (exit_code, ⟨.spaceAborted, false⟩)
  else
    (ExitCodes.UPLOAD_ERR, ⟨.skippedExisting, false⟩)

def sshUploadLoop (force isRoot : Bool) (envs : List SshFileEnv)
    (exit_code : Nat) : Nat × List FileStep :=
  match envs with
  | [] => (exit_code, [])
  | e :: es =>
    let r := processFileSsh force isRoot e exit_code
    let rest := sshUploadLoop force isRoot es r.1
    (rest.1, r.2 :: rest.2)

structure NfsFileEnv where
  existsResult : Option Bool
  spaceResult : Option (Nat × Nat)
  copyOk : Bool
  renameOk : Bool
deriving DecidableEq, Repr

def processFileNfs (force dest_exists : Bool) (env : NfsFileEnv)
    (exit_code : Nat) : Nat × FileStep :=
  if force || !dest_exists then
    -- inner `try:`; `remove_file_nfs` swallows its own exceptions,
    -- `space_test_nfs` may raise, `copy_file` and `rename_file_nfs`
    -- return booleans (`rename_file_nfs` sets `UPLOAD_ERR` itself)
    match env.spaceResult with
    | none => (ExitCodes.UPLOAD_ERR, ⟨.errored, false⟩)
    | some (dir_size, file_size) =>
      if dir_size > file_size then
        if env.copyOk then
          if env.renameOk then
            (exit_code, ⟨.uploaded, true⟩)
          else
            (ExitCodes.UPLOAD_ERR, ⟨.renameFailed, true⟩)
        else
          -- a `False` from `copy_file` is simply ignored by the body
          (exit_code, ⟨.copyFailed, true⟩)
      else
        -- `logging.error('There is not enough space ...')` only
        (exit_code, ⟨.spaceAborted, false⟩)
  else
    (ExitCodes.UPLOAD_ERR, ⟨.skippedExisting, false⟩)

/-- The NFS per-file loop.  An exception out of `exists_nfs`
(`existsResult = none`) escapes to the run-level `except Exception`
handler, which sets `CRITICAL` and ends the loop; the third component
reports that abort. -/
def nfsUploadLoop (force : Bool) (envs : List NfsFileEnv)
    (exit_code : Nat) : Nat × List FileStep × Bool :=
  match envs with
  | [] => (exit_code, [], false)
  | e :: es =>
    match e.existsResult with
    | none => (ExitCodes.CRITICAL, [], true)
    | some b =>
      let r := processFileNfs force b e exit_code
      let rest := nfsUploadLoop force es r.1
      (rest.1, r.2 :: rest.2.1, rest.2.2)

/-! ### The NFS run: mount, loop, `finally` cleanup -/

structure NfsRunEnv where
  mountOk : Bool
  vdsmDefined : Bool
  files : List NfsFileEnv
  umountOk : Bool
  rmtreeOk : Bool
deriving DecidableEq, Repr

structure NfsRunResult where
  exit_code : Nat
  steps : List FileStep
  cleanupRan : Bool
  dirRemoved : Bool
deriving DecidableEq, Repr

/-- The NFS branch of `upload_to_storage_domain`: mount the export
(a raising `caller.call` is caught by the run-level handler, setting
`CRITICAL`), check the `vdsm` user (`KeyError` sets `CRITICAL`), run
the per-file loop, then in `finally:` unmount and `shutil.rmtree` the
temporary directory; if that cleanup raises, `exit_code` is assigned
`CLEANUP_ERR`. -/
def nfsUpload (force : Bool) (env : NfsRunEnv) (exit_code : Nat) :
    NfsRunResult :=
  let body : Nat × List FileStep :=
    if !env.mountOk then (ExitCodes.CRITICAL, [])
    else if !env.vdsmDefined then (ExitCodes.CRITICAL, [])
    else
      let r := nfsUploadLoop force env.files exit_code
      (r.1, r.2.1)
  -- `finally:` — always executed
  if env.umountOk && env.rmtreeOk then
    ⟨body.1, body.2, true, true⟩
  else
    ⟨ExitCodes.CLEANUP_ERR, body.2, true, false⟩

/-! ### `list_all_ISO_storage_domains`

A storage domain carries its name, its `type.value`, and an optional
`external_status` value.  The listing keeps `[domain.name,
status.value]` for every domain whose type is `'iso'` and whose
`external_status` is not `None` (a missing status is only logged at
debug level), then sorts by name (`isoAry.sort(key=get_name)` — a
stable ascending sort by the name) and prints the pairs. -/

structure StorageDomain where
  name : String
  type : String
  external_status : Option String
deriving DecidableEq, Repr

def byName (p q : String × String) : Prop := p.1 ≤ q.1

instance : DecidableRel byName := fun p q => by
  unfold byName; infer_instance

instance : IsTotal (String × String) byName :=
  ⟨fun a b => le_total a.1 b.1⟩

instance : IsTrans (String × String) byName :=
  ⟨fun _ _ _ h1 h2 => le_trans h1 h2⟩

/-- The loop body: a domain contributes `[domain.name, status.value]`
when its type is `'iso'` and it has an `external_status`. -/
def isoEntry (d : StorageDomain) : Option (String × String) :=
  if d.type = "iso" then
    match d.external_status with
    | some status => some (d.name, status)
    | none => none
  else none

def list_all_ISO_storage_domains (domainAry : List StorageDomain) :
    List (String × String) :=
  (domainAry.filterMap isoEntry).insertionSort byName

/-! ### `Caller`: the process invoker

`prep` interpolates the configuration into the command template with
Python's `%` operator (`'%(key)s'` placeholders; `Configuration` is a
`dict` whose `__missing__` yields `None`, which formats as the string
`"None"`) and splits the result with `shlex.split`.  `call` forks the
resulting argv; on a zero exit status it returns `(stdout,
returncode)` and otherwise it raises `Exception(stderr)`.  The
operating system is passed in as a function from argv to a process
result. -/

structure ProcResult where
  stdout : String
  stderr : String
  returncode : Int
deriving DecidableEq, Repr

def lookupConf (conf : List (String × String)) (key : String) : String :=
  match conf.lookup key with
  | some v => v
  | none => "None"

/-- Python `%`-interpolation restricted to the `'%(key)s'` form used by
every command template in the program.  The second argument holds the
reversed characters of a placeholder key currently being read. -/
def interpolateAux (conf : List (String × String)) :
    List Char → Option (List Char) → List Char
  | [], none => []
  | [], some acc => '%' :: '(' :: acc.reverse
  | '%' :: '(' :: rest, none => interpolateAux conf rest (some [])
  | c :: rest, none => c :: interpolateAux conf rest none
  | ')' :: 's' :: rest, some acc =>
    (lookupConf conf (String.mk acc.reverse)).data ++
      interpolateAux conf rest none
  | c :: rest, some acc => interpolateAux conf rest (some (c :: acc))

def interpolate (conf : List (String × String)) (l : List Char) :
    List Char :=
  interpolateAux conf l none

/-- `shlex.split`: whitespace-separated tokens, honouring single and
double quotes (the subset of POSIX `shlex` behaviour the program's
command templates exercise). -/
def shlexSplitAux : List Char → List Char → Option Char → List String
  | [], acc, _ =>
    if acc.isEmpty then [] else [String.mk acc.reverse]
  | c :: rest, acc, some q =>
    if c = q then shlexSplitAux rest acc none
    else shlexSplitAux rest (c :: acc) (some q)
  | c :: rest, acc, none =>
    if c = ' ' ∨ c = '\t' ∨ c = '\n' then
      if acc.isEmpty then shlexSplitAux rest [] none
      else String.mk acc.reverse :: shlexSplitAux rest [] none
    else if c = '"' ∨ c = '\'' then shlexSplitAux rest acc (some c)
    else shlexSplitAux rest (c :: acc) none

def shlexSplit (s : String) : List String :=
  shlexSplitAux s.data [] none

namespace Caller

def prep (conf : List (String × String)) (cmd : String) : List String :=
  shlexSplit (String.mk (interpolate conf cmd.data))

def call (conf : List (String × String)) (cmd : String)
    (popen : List String → ProcResult) : Except String (String × Int) :=
  let proc := popen (prep conf cmd)
  if proc.returncode = 0 then
    .ok (proc.stdout, proc.returncode)
  else
    .error proc.stderr

end Caller

/-! ### `exists_ssh`

`returncode` starts at `1`; the `caller.call` of
`ssh ... "test -e FILE"` overwrites it on success and any exception is
swallowed by the bare `except: pass`, so the function answers `True`
exactly when the remote command exited with status zero. -/

def exists_ssh (conf : List (String × String)) (cmd : String)
    (popen : List String → ProcResult) : Bool :=
  let r : Int :=
    match Caller.call conf cmd popen with
    | .ok (_, returncode) => returncode
    | .error _ => 1
  r = 0

/-! ### `copyfileobj_sparse_progress`

The destination file handle is a byte list plus a cursor.  `write`
overwrites at the cursor (zero-padding any gap if the cursor is past
the end, which is how holes read back), `seek(n, SEEK_CUR)` moves the
cursor, and Python's no-argument `truncate()` resizes the file to the
cursor, zero-filling when extending.  The source is read in chunks of
`length` bytes; a chunk equal to `'\0' * len(buf)` is seeked over when
`make_sparse` holds, and a final `truncate()` pins the size. -/

structure DstFile where
  data : List Nat
  pos : Nat
deriving DecidableEq, Repr

def padTo (data : List Nat) (n : Nat) : List Nat :=
  data ++ List.replicate (n - data.length) 0

def dstWrite (f : DstFile) (buf : List Nat) : DstFile :=
  ⟨(padTo f.data f.pos).take f.pos ++ buf ++ f.data.drop (f.pos + buf.length),
    f.pos + buf.length⟩

def dstSeek (f : DstFile) (n : Nat) : DstFile :=
  ⟨f.data, f.pos + n⟩

def dstTruncate (f : DstFile) : DstFile :=
  ⟨f.data.take f.pos ++ List.replicate (f.pos - f.data.length) 0, f.pos⟩

/-- The successive results of `fsrc.read(length)`, stopping at the
first empty read: nonempty chunks of at most `length` bytes. -/
def chunks (length : Nat) : List Nat → List (List Nat)
  | [] => []
  | x :: xs =>
    if _h : length = 0 then []
    else (x :: xs).take length :: chunks length ((x :: xs).drop length)
termination_by l => l.length
decreasing_by
  simp only [List.length_drop, List.length_cons]
  omega

def copyStep (make_sparse : Bool) (fdst : DstFile) (buf : List Nat) :
    DstFile :=
  if make_sparse && buf.all (fun b => b == 0) then
    dstSeek fdst buf.length
  else
    dstWrite fdst buf

def copyfileobj_sparse_progress (fsrc : List Nat) (fdst : DstFile)
    (length : Nat) (make_sparse : Bool) : DstFile :=
  let d := (chunks length fsrc).foldl (copyStep make_sparse) fdst
  if make_sparse then dstTruncate d else d

/-! ### Privilege traces of the NFS helpers

`exists_nfs`, `space_test_nfs`, `copy_file`, `rename_file_nfs` and
`remove_file_nfs` each run their filesystem work between
`os.setegid(gid)` / `os.seteuid(uid)` and a `finally:` that restores
`os.seteuid(0)` / `os.setegid(0)`.  Each helper is rendered as the
trace of privilege-relevant events it performs on a given outcome;
`fsop` marks an impersonated filesystem operation being issued. -/

inductive PrivEv where
  | setegid (gid : Nat)
  | seteuid (uid : Nat)
  | fsop
deriving DecidableEq, Repr

structure PrivState where
  euid : Nat
  egid : Nat
deriving DecidableEq, Repr

def stepPriv (s : PrivState) : PrivEv → PrivState
  | .setegid g => ⟨s.euid, g⟩
  | .seteuid u => ⟨u, s.egid⟩
  | .fsop => s

def privAfter (s : PrivState) (tr : List PrivEv) : PrivState :=
  tr.foldl stepPriv s

/-- The privilege states at which each `fsop` of a trace is issued. -/
def fsopStates (s : PrivState) : List PrivEv → List PrivState
  | [] => []
  | .fsop :: es => s :: fsopStates s es
  | e :: es => fsopStates (stepPriv s e) es

/-- `exists_nfs`: set gid/uid, run `os.path.exists`, restore in
`finally:` — the same trace whether the check raises or returns. -/
def exists_nfs_trace (uid gid : Nat) (_opRaises : Bool) : List PrivEv :=
  [.setegid gid, .seteuid uid, .fsop, .seteuid 0, .setegid 0]

/-- `space_test_nfs`: set gid/uid, run `os.statvfs`, restore in
`finally:` — the same trace whether the call raises or returns. -/
def space_test_nfs_trace (uid gid : Nat) (_opRaises : Bool) : List PrivEv :=
  [.setegid gid, .seteuid uid, .fsop, .seteuid 0, .setegid 0]

inductive CopyOutcome where
  | srcOpenFails
  | destOpenFails
  | copyRaises
  | ok
deriving DecidableEq, Repr

/-- `copy_file`: the source `open` happens before impersonation; the
destination `open` and the sparse copy run impersonated; the
`finally:` restores uid then gid on every path. -/
def copy_file_trace (uid gid : Nat) : CopyOutcome → List PrivEv
  | .srcOpenFails => [.seteuid 0, .setegid 0]
  | .destOpenFails => [.setegid gid, .seteuid uid, .fsop, .seteuid 0, .setegid 0]
  | .copyRaises =>
    [.setegid gid, .seteuid uid, .fsop, .fsop, .seteuid 0, .setegid 0]
  | .ok => [.setegid gid, .seteuid uid, .fsop, .fsop, .seteuid 0, .setegid 0]

/-- `rename_file_nfs`: set gid/uid, `os.rename`, restore in
`finally:` — the same trace whether the rename raises or returns. -/
def rename_file_nfs_trace (uid gid : Nat) (_opRaises : Bool) : List PrivEv :=
  [.setegid gid, .seteuid uid, .fsop, .seteuid 0, .setegid 0]

/-- `remove_file_nfs`: set gid/uid, `os.remove`, restore in
`finally:` — the same trace whether the remove raises or returns. -/
def remove_file_nfs_trace (uid gid : Nat) (_opRaises : Bool) : List PrivEv :=
  [.setegid gid, .seteuid uid, .fsop, .seteuid 0, .setegid 0]

/-! ## Theorems -/

/-- Claim C6: supplying both `--iso-domain` and `--nfs-server` makes
`upload_to_storage_domain` raise the mutual-exclusion error before any
work is done, and supplying neither raises as well, for any setting of
`--ssh-user`. -/
theorem C6_upload_option_validation (ssh_user : Bool) :
    checkUploadOptions true true ssh_user =
      .error "iso-domain and nfs-server are mutually exclusive options"
    ∧ checkUploadOptions false false ssh_user =
      .error "either iso-domain or nfs-server must be provided" := by
  cases ssh_user <;> exact ⟨rfl, rfl⟩

/-- Claim C3: over either transport, a file whose destination already
exists is skipped — `UPLOAD_ERR` is recorded but no copy is attempted —
unless the force flag is set, in which case the skip branch is not
taken even though the destination exists. -/
theorem C3_force_overrides_existing (isRoot : Bool) (envS : SshFileEnv)
    (envN : NfsFileEnv) (ec : Nat) :
    processFileSsh false isRoot { envS with destExists := true } ec
      = (ExitCodes.UPLOAD_ERR, ⟨.skippedExisting, false⟩)
    ∧ ((processFileSsh true isRoot { envS with destExists := true } ec).2.event
        == FileEvent.skippedExisting) = false
    ∧ processFileNfs false true envN ec
      = (ExitCodes.UPLOAD_ERR, ⟨.skippedExisting, false⟩)
    ∧ ((processFileNfs true true envN ec).2.event
        == FileEvent.skippedExisting) = false := by
  refine ⟨by simp [processFileSsh], ?_, by simp [processFileNfs], ?_⟩
  · rcases h : envS.spaceResult with _ | ⟨d, f⟩
    · simp [processFileSsh, h]
    · simp [processFileSsh, h]
      split_ifs <;> exact not_false
  · rcases h : envN.spaceResult with _ | ⟨d, f⟩
    · simp [processFileNfs, h]
    · simp [processFileNfs, h]
      split_ifs <;> exact not_false

/-- Claim C1 (amended): over either transport, a file whose
destination free space is at most the source size is aborted without
attempting the copy and the loop proceeds to the remaining files
exactly as it would have from the same exit code — in particular that
branch leaves `ExitCodes.exit_code` unchanged. -/
theorem C1_space_abort_nonfatal (force isRoot : Bool) (envS : SshFileEnv)
    (envN : NfsFileEnv) (es : List SshFileEnv) (en : List NfsFileEnv)
    (ec d k : Nat) :
    sshUploadLoop force isRoot
        ({ envS with destExists := false, spaceResult := some (d, d + k) } :: es) ec
      = ((sshUploadLoop force isRoot es ec).1,
         ⟨.spaceAborted, false⟩ :: (sshUploadLoop force isRoot es ec).2)
    ∧ nfsUploadLoop force
        ({ envN with existsResult := some false, spaceResult := some (d, d + k) } :: en) ec
      = ((nfsUploadLoop force en ec).1,
         ⟨.spaceAborted, false⟩ :: (nfsUploadLoop force en ec).2.1,
         (nfsUploadLoop force en ec).2.2) := by
  have hnot : ¬ d > d + k := by omega
  constructor
  · simp [sshUploadLoop, processFileSsh, hnot]
  · simp [nfsUploadLoop, processFileNfs, hnot]

/-- Claim C1, original form, is false: an NFS run whose single file
hits the insufficient-space branch (free space `5 ≤ 5` bytes of source)
aborts that file, yet the process exit code stays `0`, not non-zero —
the branch only logs. -/
theorem C1_counterexample :
    (nfsUpload false
        ⟨true, true, [⟨some false, some (5, 5), true, true⟩], true, true⟩
        ExitCodes.NOERR).steps = [⟨.spaceAborted, false⟩]
    ∧ (nfsUpload false
        ⟨true, true, [⟨some false, some (5, 5), true, true⟩], true, true⟩
        ExitCodes.NOERR).exit_code = 0
    ∧ (sshUploadLoop false false
        [⟨false, true, some (5, 5), true, true, true, true⟩]
        ExitCodes.NOERR).2 = [⟨.spaceAborted, false⟩]
    ∧ (sshUploadLoop false false
        [⟨false, true, some (5, 5), true, true, true, true⟩]
        ExitCodes.NOERR).1 = 0 := by
  decide

/-- Claim C2 (amended): when the NFS `finally:` cleanup fails — either
the unmount command or the `shutil.rmtree` raising — the exit code is
set to `CLEANUP_ERR` unconditionally, overriding whatever failure code
had been recorded before. -/
theorem C2_cleanup_overrides (force : Bool) (env : NfsRunEnv) (ec : Nat) :
    (nfsUpload force { env with umountOk := false } ec).exit_code
      = ExitCodes.CLEANUP_ERR
    ∧ (nfsUpload force { env with rmtreeOk := false } ec).exit_code
      = ExitCodes.CLEANUP_ERR := by
  constructor
  · simp [nfsUpload]
  · simp [nfsUpload]

/-- Claim C2, original form, is false: a run whose one file records an
upload error (`space_test_nfs` raises, exit code `3`) and whose
unmount then fails ends with exit code `4` — the already-set failure
code is overridden by the cleanup-error code. -/
theorem C2_counterexample :
    (nfsUploadLoop false [⟨some false, none, true, true⟩] ExitCodes.NOERR).1
      = ExitCodes.UPLOAD_ERR
    ∧ (nfsUpload false
        ⟨true, true, [⟨some false, none, true, true⟩], false, true⟩
        ExitCodes.NOERR).exit_code = ExitCodes.CLEANUP_ERR := by
  decide

/-- Claim C5: the NFS run's unmount-and-remove cleanup executes on
every path — whatever the per-file existence, space, copy and rename
outcomes and whatever the mount result — and whenever the cleanup
commands themselves succeed the temporary directory is removed, in
particular on runs whose copy step failed. -/
theorem C5_cleanup_always_runs (force : Bool) (env : NfsRunEnv) (ec : Nat) :
    (nfsUpload force env ec).cleanupRan = true
    ∧ (nfsUpload force
        { env with umountOk := true, rmtreeOk := true } ec).dirRemoved = true := by
  constructor
  · unfold nfsUpload
    cases h : env.umountOk && env.rmtreeOk <;> simp [h]
  · simp [nfsUpload]

lemma isoEntry_eq_some_iff (d : StorageDomain) (p : String × String) :
    isoEntry d = some p ↔
      d.type = "iso" ∧ d.name = p.1 ∧ d.external_status = some p.2 := by
  rcases p with ⟨n, s⟩
  unfold isoEntry
  split
  · next hiso =>
    cases h : d.external_status <;> simp [h, hiso, And.comm]
  · next hiso =>
    simp [hiso]

/-- Claim C7 (amended): the listing holds exactly the domains of type
`'iso'` that carry a status element — an iso-type domain whose
`external_status` is missing is only logged and does not appear — as
`(name, status)` pairs sorted ascending by domain name. -/
theorem C7_list_iso_domains (ds : List StorageDomain) (p : String × String) :
    (p ∈ list_all_ISO_storage_domains ds ↔
      ∃ d, d ∈ ds ∧ d.type = "iso" ∧ d.name = p.1
        ∧ d.external_status = some p.2)
    ∧ (list_all_ISO_storage_domains ds).Sorted byName := by
  constructor
  · unfold list_all_ISO_storage_domains
    rw [(List.perm_insertionSort byName _).mem_iff, List.mem_filterMap]
    exact exists_congr fun d =>
      and_congr_right fun _ => isoEntry_eq_some_iff d p
  · exact List.sorted_insertionSort byName _

/-- Claim C7, original form, is false: the listing does not print
every iso-type domain — a domain of type `'iso'` whose
`external_status` element is missing is dropped, as witnessed by a
one-domain input producing an empty listing. -/
theorem C7_counterexample :
    ¬ (∀ (ds : List StorageDomain) (d : StorageDomain),
        d ∈ ds → d.type = "iso" →
        d.name ∈ (list_all_ISO_storage_domains ds).map Prod.fst) := by
  intro h
  have h2 := h [⟨"a", "iso", none⟩] ⟨"a", "iso", none⟩
    (List.mem_singleton.mpr rfl) rfl
  have h3 : list_all_ISO_storage_domains [⟨"a", "iso", none⟩] = [] := rfl
  rw [h3] at h2
  simp at h2

lemma copyStep_pos (ms : Bool) (d : DstFile) (buf : List Nat) :
    (copyStep ms d buf).pos = d.pos + buf.length := by
  unfold copyStep dstSeek dstWrite
  split <;> rfl

lemma foldl_copyStep_pos (ms : Bool) (cs : List (List Nat)) :
    ∀ d : DstFile,
      (cs.foldl (copyStep ms) d).pos = d.pos + (cs.map List.length).sum := by
  induction cs with
  | nil => intro d; simp
  | cons c cs ih =>
    intro d
    simp only [List.foldl_cons, List.map_cons, List.sum_cons]
    rw [ih, copyStep_pos]
    omega

lemma chunks_sum_aux (n : Nat) (hn : 0 < n) :
    ∀ (m : Nat) (l : List Nat), l.length ≤ m →
      ((chunks n l).map List.length).sum = l.length := by
  intro m
  induction m with
  | zero =>
    intro l hl
    have h0 : l = [] := List.eq_nil_of_length_eq_zero (Nat.le_zero.mp hl)
    subst h0
    simp [chunks]
  | succ m ih =>
    intro l hl
    cases l with
    | nil => simp [chunks]
    | cons x xs =>
      rw [chunks, dif_neg (Nat.pos_iff_ne_zero.mp hn)]
      simp only [List.map_cons, List.sum_cons]
      rw [ih ((x :: xs).drop n) (by simp only [List.length_drop]; omega)]
      simp only [List.length_take, List.length_drop, List.length_cons]
      omega

lemma chunks_sum (n : Nat) (hn : 0 < n) (l : List Nat) :
    ((chunks n l).map List.length).sum = l.length :=
  chunks_sum_aux n hn l.length l le_rfl

lemma dstTruncate_data_length (f : DstFile) :
    (dstTruncate f).data.length = f.pos := by
  simp only [dstTruncate, List.length_append, List.length_take,
    List.length_replicate]
  omega

/-- Claim C4: with sparse mode enabled, an all-zero chunk is handled
by seeking — the destination's bytes are untouched and only its cursor
advances by the chunk length — and the copy of a fresh destination
ends with a `truncate()` pinning the destination's cursor and size to
exactly the number of bytes copied, i.e. the source length. -/
theorem C4_sparse_copy (src : List Nat) (length : Nat) (hl : 0 < length) :
    (∀ (fdst : DstFile) (buf : List Nat),
        buf.all (fun b => b == 0) = true →
        copyStep true fdst buf = ⟨fdst.data, fdst.pos + buf.length⟩)
    ∧ (copyfileobj_sparse_progress src ⟨[], 0⟩ length true).pos = src.length
    ∧ (copyfileobj_sparse_progress src ⟨[], 0⟩ length true).data.length
        = src.length := by
  refine ⟨?_, ?_, ?_⟩
  · intro fdst buf hbuf
    simp [copyStep, hbuf, dstSeek]
  · show (dstTruncate _).pos = _
    simp only [dstTruncate]
    rw [foldl_copyStep_pos, chunks_sum length hl src]
    simp
  · show (dstTruncate _).data.length = _
    rw [dstTruncate_data_length, foldl_copyStep_pos, chunks_sum length hl src]
    simp

/-- Witness for `C4_sparse_copy` at `length = 2` and a four-byte
source whose first chunk is all zeros. -/
theorem C4_sparse_copy_witness :
    0 < 2
    ∧ copyStep true ⟨[1, 2], 2⟩ [0, 0] = ⟨[1, 2], 4⟩
    ∧ (copyfileobj_sparse_progress [0, 0, 0, 1] ⟨[], 0⟩ 2 true).pos = 4
    ∧ (copyfileobj_sparse_progress [0, 0, 0, 1] ⟨[], 0⟩ 2 true).data.length
        = 4 := by
  have h := C4_sparse_copy [0, 0, 0, 1] 2 (by decide)
  exact ⟨by decide, h.1 ⟨[1, 2], 2⟩ [0, 0] (by decide), h.2.1, h.2.2⟩

/-- Claim C8: `Caller.call` interpolates the configuration into the
template, `shlex`-splits it into argv tokens, forks that argv and —
for whatever process the operating system then runs — returns the
captured standard output with the status exactly when the exit status
is zero, and raises carrying the captured standard error exactly when
it is non-zero. -/
theorem C8_caller_call (conf : List (String × String)) (cmd : String)
    (popen : List String → ProcResult) :
    ((popen (Caller.prep conf cmd)).returncode = 0 →
      Caller.call conf cmd popen =
        .ok ((popen (Caller.prep conf cmd)).stdout,
             (popen (Caller.prep conf cmd)).returncode))
    ∧ ((popen (Caller.prep conf cmd)).returncode ≠ 0 →
      Caller.call conf cmd popen =
        .error (popen (Caller.prep conf cmd)).stderr)
    ∧ (∀ x, Caller.call conf cmd popen = .ok x →
        (popen (Caller.prep conf cmd)).returncode = 0) := by
  refine ⟨fun h0 => ?_, fun h1 => ?_, fun x hx => ?_⟩
  · simp [Caller.call, h0]
  · simp [Caller.call, h1]
  · by_contra hne
    simp [Caller.call, hne] at hx

/-- Witness for `C8_caller_call`: a concrete ssh template is
interpolated and split, a zero-status process yields its stdout, and a
non-zero-status process raises with its stderr. -/
theorem C8_caller_call_witness :
    Caller.prep [("ssh_port", "22")] "/usr/bin/ssh -p %(ssh_port)s root@host"
      = ["/usr/bin/ssh", "-p", "22", "root@host"]
    ∧ Caller.call [("ssh_port", "22")] "/usr/bin/ssh -p %(ssh_port)s root@host"
        (fun _ => ⟨"out", "err", 0⟩) = .ok ("out", 0)
    ∧ Caller.call [("ssh_port", "22")] "/usr/bin/ssh -p %(ssh_port)s root@host"
        (fun _ => ⟨"out", "err", 1⟩) = .error "err" := by
  refine ⟨by decide, ?_, ?_⟩
  · exact (C8_caller_call [("ssh_port", "22")]
      "/usr/bin/ssh -p %(ssh_port)s root@host" (fun _ => ⟨"out", "err", 0⟩)).1 rfl
  · exact (C8_caller_call [("ssh_port", "22")]
      "/usr/bin/ssh -p %(ssh_port)s root@host"
      (fun _ => ⟨"out", "err", 1⟩)).2.1 (by decide)

/-- Claim C9: each NFS-impersonated helper — existence check, space
check, copy, rename, remove — issues every impersonated filesystem
operation at effective UID/GID `(uid, gid)` and ends with the
effective UID and GID restored to root `(0, 0)`, on every outcome,
raising included. -/
theorem C9_privileges_restored (uid gid : Nat) (b1 b2 b3 b4 : Bool)
    (oc : CopyOutcome) :
    (privAfter ⟨0, 0⟩ (exists_nfs_trace uid gid b1) = ⟨0, 0⟩
      ∧ fsopStates ⟨0, 0⟩ (exists_nfs_trace uid gid b1) = [⟨uid, gid⟩])
    ∧ (privAfter ⟨0, 0⟩ (space_test_nfs_trace uid gid b2) = ⟨0, 0⟩
      ∧ fsopStates ⟨0, 0⟩ (space_test_nfs_trace uid gid b2) = [⟨uid, gid⟩])
    ∧ (privAfter ⟨0, 0⟩ (copy_file_trace uid gid oc) = ⟨0, 0⟩
      ∧ (fsopStates ⟨0, 0⟩ (copy_file_trace uid gid oc)).all
          (fun s => s == ⟨uid, gid⟩) = true)
    ∧ (privAfter ⟨0, 0⟩ (rename_file_nfs_trace uid gid b3) = ⟨0, 0⟩
      ∧ fsopStates ⟨0, 0⟩ (rename_file_nfs_trace uid gid b3) = [⟨uid, gid⟩])
    ∧ (privAfter ⟨0, 0⟩ (remove_file_nfs_trace uid gid b4) = ⟨0, 0⟩
      ∧ fsopStates ⟨0, 0⟩ (remove_file_nfs_trace uid gid b4) = [⟨uid, gid⟩]) := by
  refine ⟨⟨rfl, rfl⟩, ⟨rfl, rfl⟩, ?_, ⟨rfl, rfl⟩, ⟨rfl, rfl⟩⟩
  cases oc <;>
    simp [copy_file_trace, privAfter, stepPriv, fsopStates]

/-- Claim C10: `exists_ssh` answers `True` exactly when the remote
`test -e` command exits with status zero; any failure of the
`caller.call` — a non-zero status for whatever reason, connection and
authentication failures included — is swallowed and the check answers
`False`, letting the upload proceed as if the file were absent. -/
theorem C10_exists_ssh_false_on_failure (conf : List (String × String))
    (cmd : String) (popen : List String → ProcResult) :
    exists_ssh conf cmd popen
      = decide ((popen (Caller.prep conf cmd)).returncode = 0) := by
  unfold exists_ssh Caller.call
  by_cases h : (popen (Caller.prep conf cmd)).returncode = 0 <;> simp [h]

end IsoUploader
